import Mathlib

/-!
Verification development for the Torito collateralized micro-lending backend.

The definitions below shallowly embed the backend's route handlers and
helper functions. Currency amounts and exchange rates are modelled as exact
rationals (the source computes with the host's binary doubles; the exact
model is the reading most favourable to the numeric claims). JavaScript
values that can be absent or null are modelled with Option; fallible
handlers return Except together with the resulting stored record, so that
"the store is unchanged on failure" is a provable statement rather than a
convention.
-/

namespace Torito

/-- Repayment sub-record of a stored loan (loanSchema.repayment). -/
structure RepaymentInfo where
  dueDate : Option Nat
  repaidAt : Option Nat
  repaidAmount : Option ℚ
  confirmed : Bool
  confirmedAt : Option Nat
  confirmationId : Option String
deriving DecidableEq

/-- Stored loan record, the fields the lifecycle endpoints touch
(loanSchema in the Loan model). Status is kept as a string because the
schema enum and the route validators disagree on the legal values. -/
structure Loan where
  loanId : String
  userId : String
  status : String
  partnerOrderId : Option String
  partnerTransferId : Option String
  repayment : RepaymentInfo
deriving DecidableEq

/-- The status enum of the Loan mongoose schema. Note that the string
"rejected" is absent, although the partner route validator accepts it. -/
def loanStatusEnum : List String :=
  ["pending", "approved", "funded", "repaid", "liquidated", "cancelled"]

/-- Target statuses accepted by the validator of POST /api/partner/loan/status. -/
def partnerTargetStatuses : List String := ["approved", "funded", "rejected"]

inductive PartnerStatusError where
  | validationFailed
  | saveValidationFailed
deriving DecidableEq

/-- Mongoose save of a loan: enum validation on the status path. A status
outside the schema enum makes save throw and leaves the store unchanged. -/
def saveLoan (stored l : Loan) : Except PartnerStatusError Unit × Loan :=
  if l.status ∈ loanStatusEnum then (Except.ok (), l)
  else (Except.error PartnerStatusError.saveValidationFailed, stored)

/-- POST /api/partner/loan/status on a found loan: after the validator
admits the target, the handler assigns the status unconditionally, copies
the optional partner references, and saves. There is no check of the
current status against any transition table. -/
def partnerUpdateStatus (l : Loan) (target : String)
    (orderId transferId : Option String) :
    Except PartnerStatusError Unit × Loan :=
  if target ∈ partnerTargetStatuses then
    let l' : Loan :=
      { l with
        status := target
        partnerOrderId := match orderId with
          | some o => some o
          | none => l.partnerOrderId
        partnerTransferId := match transferId with
          | some t => some t
          | none => l.partnerTransferId }
    saveLoan l l'
  else (Except.error PartnerStatusError.validationFailed, l)

/-- The allowed-transition table asserted by the specification. -/
def allowedTransition (curr target : String) : Bool :=
  decide ((curr, target) ∈ [("pending", "approved"), ("pending", "funded"),
    ("pending", "rejected"), ("pending", "cancelled"),
    ("approved", "repaid"), ("funded", "repaid"),
    ("approved", "liquidated"), ("funded", "liquidated")])

deriving instance DecidableEq for Except

/-- Repayment record of a fresh loan: nothing repaid yet. -/
def freshRepayment : RepaymentInfo :=
  ⟨some 30, none, none, false, none, none⟩

/-- A stored loan already in the terminal status "repaid". -/
def sampleRepaidLoan : Loan :=
  ⟨"LOAN-A", "user-1", "repaid", none, none,
    ⟨some 30, some 10, some 100, true, some 10, some "CONF-1"⟩⟩

/-- A stored loan in status "pending". -/
def samplePendingLoan : Loan :=
  ⟨"LOAN-B", "user-2", "pending", none, none, freshRepayment⟩

/-- C1: the partner status endpoint contradicts the closed transition
table. The out-of-table transition repaid -> approved is applied silently
and saved, while the in-table transition pending -> rejected fails at save
because the schema enum omits "rejected", so the handler's own validator
and the model disagree. -/
theorem partner_status_breaks_transition_table :
    allowedTransition "repaid" "approved" = false ∧
    (partnerUpdateStatus sampleRepaidLoan "approved" none none).1 =
      Except.ok () ∧
    (partnerUpdateStatus sampleRepaidLoan "approved" none none).2.status =
      "approved" ∧
    allowedTransition "pending" "rejected" = true ∧
    (partnerUpdateStatus samplePendingLoan "rejected" none none).1 =
      Except.error PartnerStatusError.saveValidationFailed ∧
    (partnerUpdateStatus samplePendingLoan "rejected" none none).2 =
      samplePendingLoan := by
  decide

inductive RepayError where
  | notRepayable
deriving DecidableEq

/-- POST /api/partner/loan/repayment on a found loan: requires the current
status to be funded or approved, then sets status repaid and records the
repaid amount, the repayment time (the supplied date, or now), and the
partner confirmation id. Save always passes the enum here since "repaid"
is a schema value. -/
def confirmRepayment (l : Loan) (repaidAmount : ℚ) (confirmationId : String)
    (repaymentDate : Option Nat) (now : Nat) :
    Except RepayError Unit × Loan :=
  if l.status = "funded" ∨ l.status = "approved" then
    (Except.ok (),
      { l with
          status := "repaid"
          repayment := ⟨l.repayment.dueDate, some (repaymentDate.getD now),
            some repaidAmount, true, some now, some confirmationId⟩ })
  else (Except.error RepayError.notRepayable, l)

/-- C7: repayment confirmation succeeds exactly from approved or funded,
fails with the not-repayable rejection otherwise leaving the loan
unchanged, and on success records status, amount, time and confirmation. -/
theorem confirm_repayment_spec (l : Loan) (amt : ℚ) (cid : String)
    (rd : Option Nat) (now : Nat) :
    ((confirmRepayment l amt cid rd now).1 = Except.ok () ↔
      l.status = "approved" ∨ l.status = "funded") ∧
    (¬(l.status = "approved" ∨ l.status = "funded") →
      (confirmRepayment l amt cid rd now).1 =
        Except.error RepayError.notRepayable ∧
      (confirmRepayment l amt cid rd now).2 = l) ∧
    ((l.status = "approved" ∨ l.status = "funded") →
      (confirmRepayment l amt cid rd now).2.status = "repaid" ∧
      (confirmRepayment l amt cid rd now).2.repayment.repaidAmount =
        some amt ∧
      (confirmRepayment l amt cid rd now).2.repayment.repaidAt =
        some (rd.getD now) ∧
      (confirmRepayment l amt cid rd now).2.repayment.confirmationId =
        some cid) := by
  by_cases h : l.status = "funded" ∨ l.status = "approved" <;>
    simp [confirmRepayment, h] <;> tauto

/-- Witness for C7 at concrete loans: a funded loan is repaid with its
record filled in, a repaid loan is rejected unchanged. -/
theorem confirm_repayment_spec_witness :
    ((confirmRepayment ⟨"L1", "u", "funded", none, none, freshRepayment⟩
        250 "CONF" none 7).1 = Except.ok () ∧
      (confirmRepayment ⟨"L1", "u", "funded", none, none, freshRepayment⟩
        250 "CONF" none 7).2.status = "repaid") ∧
    (confirmRepayment ⟨"L2", "u", "repaid", none, none, freshRepayment⟩
        250 "CONF" none 7).1 = Except.error RepayError.notRepayable := by
  refine ⟨⟨?_, ?_⟩, ?_⟩
  · exact (confirm_repayment_spec
      ⟨"L1", "u", "funded", none, none, freshRepayment⟩ 250 "CONF" none
      7).1.mpr (by decide)
  · exact ((confirm_repayment_spec
      ⟨"L1", "u", "funded", none, none, freshRepayment⟩ 250 "CONF" none
      7).2.2 (by decide)).1
  · exact ((confirm_repayment_spec
      ⟨"L2", "u", "repaid", none, none, freshRepayment⟩ 250 "CONF" none
      7).2.1 (by decide)).1

inductive CancelError where
  | notCancellable
deriving DecidableEq

/-- PUT /api/loans/:loanId/cancel: the handler looks the loan up by id,
owner and status "pending"; a loan in any other status or owned by another
user is not found and the request is rejected with no write. On a match
the status becomes cancelled. -/
def cancelLoan (l : Loan) (requesterId : String) :
    Except CancelError Unit × Loan :=
  if l.userId = requesterId ∧ l.status = "pending" then
    (Except.ok (), { l with status := "cancelled" })
  else (Except.error CancelError.notCancellable, l)

/-- C8: cancellation succeeds exactly when the requester owns the loan and
it is pending, setting status cancelled; otherwise it is rejected and the
loan is unchanged. -/
theorem cancel_loan_spec (l : Loan) (uid : String) :
    ((cancelLoan l uid).1 = Except.ok () ↔
      l.userId = uid ∧ l.status = "pending") ∧
    (l.userId = uid ∧ l.status = "pending" →
      (cancelLoan l uid).2.status = "cancelled") ∧
    (¬(l.userId = uid ∧ l.status = "pending") →
      (cancelLoan l uid).1 = Except.error CancelError.notCancellable ∧
      (cancelLoan l uid).2 = l) := by
  by_cases h : l.userId = uid ∧ l.status = "pending" <;>
    simp [cancelLoan, h]

/-- Witness for C8: a pending loan is cancelled by its owner; the same
loan once funded can no longer be cancelled and is left unchanged. -/
theorem cancel_loan_spec_witness :
    ((cancelLoan ⟨"L3", "owner", "pending", none, none, freshRepayment⟩
        "owner").1 = Except.ok () ∧
      (cancelLoan ⟨"L3", "owner", "pending", none, none, freshRepayment⟩
        "owner").2.status = "cancelled") ∧
    ((cancelLoan ⟨"L3", "owner", "funded", none, none, freshRepayment⟩
        "owner").1 = Except.error CancelError.notCancellable ∧
      (cancelLoan ⟨"L3", "owner", "funded", none, none, freshRepayment⟩
        "owner").2 =
        ⟨"L3", "owner", "funded", none, none, freshRepayment⟩) := by
  refine ⟨⟨?_, ?_⟩, ?_⟩
  · exact (cancel_loan_spec
      ⟨"L3", "owner", "pending", none, none, freshRepayment⟩
      "owner").1.mpr (by decide)
  · exact (cancel_loan_spec
      ⟨"L3", "owner", "pending", none, none, freshRepayment⟩
      "owner").2.1 (by decide)
  · exact (cancel_loan_spec
      ⟨"L3", "owner", "funded", none, none, freshRepayment⟩
      "owner").2.2 (by decide)

/-- Rounding a rational down to d decimal places, the flooring the
specification mandates for borrow limits. -/
def floorTo (d : Nat) (q : ℚ) : ℚ :=
  (Int.floor (q * (10 : ℚ) ^ d) : ℚ) / (10 : ℚ) ^ d

/-- Maximum borrowable amount as computed by POST /api/loans/request and
GET /api/loans/quote: maxLoanUSD = collateralAmount * ltv, then
maxLoanBOB = maxLoanUSD * rate. The source applies no rounding step; it is
plain host arithmetic, modelled here as exact rationals. -/
def maxLoanBOB (collateralAmount ltv rate : ℚ) : ℚ :=
  collateralAmount * ltv * rate

/-- C2 counterexample: at balance 1, ltv 3/4 and rate 6.913 the computed
maximum borrowable is 5.18475, not the 5.18 that flooring to the loan
currency's two decimals would give, so the computed value is not the floor
to loan-currency precision. -/
theorem maxLoanBOB_not_floored :
    maxLoanBOB 1 (3 / 4) (6913 / 1000) = 20739 / 4000 ∧
    floorTo 2 (1 * (6913 / 1000) * (3 / 4)) = 518 / 100 ∧
    maxLoanBOB 1 (3 / 4) (6913 / 1000) ≠
      floorTo 2 (1 * (6913 / 1000) * (3 / 4)) := by
  norm_num [maxLoanBOB, floorTo]

/-- C2 amended: for positive rate and ltv in the unit interval the
computed maximum borrowable equals balance times rate times ltv exactly,
with no rounding to loan-currency precision applied; in the exact model it
therefore never exceeds that product. -/
theorem maxLoanBOB_exact (B R L : ℚ) (hR : 0 < R) (hL0 : 0 < L)
    (hL1 : L ≤ 1) :
    maxLoanBOB B L R = B * R * L ∧ maxLoanBOB B L R ≤ B * R * L := by
  have h : maxLoanBOB B L R = B * R * L := by unfold maxLoanBOB; ring
  exact ⟨h, le_of_eq h⟩

/-- Witness for C2's amended theorem at balance 1000, rate 6.9, ltv 3/4. -/
theorem maxLoanBOB_exact_witness :
    maxLoanBOB 1000 (3 / 4) (69 / 10) = 1000 * (69 / 10) * (3 / 4) ∧
    maxLoanBOB 1000 (3 / 4) (69 / 10) ≤ 1000 * (69 / 10) * (3 / 4) :=
  maxLoanBOB_exact 1000 (69 / 10) (3 / 4) (by norm_num) (by norm_num)
    (by norm_num)

/-- Detail payload of the withdraw rejection, exactly the fields the
handler returns: current balance, requested amount, remaining balance
after the withdrawal, required collateral and current debt. The shortfall
itself is not a field; it is the difference of two of them. -/
structure WithdrawDetails where
  currentBalance : ℚ
  requestedWithdrawal : ℚ
  remainingAfterWithdrawal : ℚ
  requiredCollateral : ℚ
  currentDebt : ℚ
deriving DecidableEq

inductive WithdrawError where
  | insufficientBalance
  | insufficientCollateralAfterWithdrawal (details : WithdrawDetails)
deriving DecidableEq

/-- Outcome of POST /api/wallet/withdraw: the handler's decision plus
whether the contract withdrawal was invoked. -/
structure WithdrawTrace where
  result : Except WithdrawError Unit
  contractInvoked : Bool
deriving DecidableEq

/-- POST /api/wallet/withdraw: reject if the contract balance is below the
requested amount; then, only when debt is positive, ask the contract for
the required collateral (its reply is the rc argument) and reject when the
remaining balance would fall below it; otherwise invoke the contract
withdrawal. -/
def withdrawRequest (balance debt amount rc : ℚ) : WithdrawTrace :=
  if balance < amount then
    ⟨Except.error WithdrawError.insufficientBalance, false⟩
  else if 0 < debt ∧ balance - amount < rc then
    ⟨Except.error (WithdrawError.insufficientCollateralAfterWithdrawal
      ⟨balance, amount, balance - amount, rc, debt⟩), false⟩
  else ⟨Except.ok (), true⟩

/-- C3 counterexample: with balance 10, debt 100, withdrawal 20 and
required collateral 80000 the required collateral exceeds the remaining
balance, yet the handler rejects with the insufficient-balance error, not
the insufficient-collateral-after-withdrawal error the claim requires for
every such request. -/
theorem withdraw_wrong_error_kind :
    (0 : ℚ) < 100 ∧ (10 : ℚ) - 20 < 80000 ∧
    (withdrawRequest 10 100 20 80000).result =
      Except.error WithdrawError.insufficientBalance ∧
    (withdrawRequest 10 100 20 80000).result ≠
      Except.error
        (WithdrawError.insufficientCollateralAfterWithdrawal
          ⟨10, 20, 10 - 20, 80000, 100⟩) := by
  refine ⟨by norm_num, by norm_num, by norm_num [withdrawRequest], ?_⟩
  simp only [withdrawRequest]
  norm_num
  exact fun h => WithdrawError.noConfusion h

/-- C3 amended: the withdrawal invokes the contract exactly when the
amount is covered by the balance and, under positive debt, the remaining
balance still covers the required collateral; with the amount covered, a
collateral shortfall is rejected with the insufficient-collateral error
carrying balance, amount, remaining, required collateral and debt; an
amount above the balance is rejected with the insufficient-balance error;
no contract withdrawal happens on any rejection; with zero debt every
amount up to the balance is admitted. -/
theorem withdraw_request_spec (balance debt amount rc : ℚ) :
    ((withdrawRequest balance debt amount rc).contractInvoked = true ↔
      amount ≤ balance ∧ (0 < debt → rc ≤ balance - amount)) ∧
    ((withdrawRequest balance debt amount rc).result =
        Except.error WithdrawError.insufficientBalance ↔
      balance < amount) ∧
    (amount ≤ balance → 0 < debt → balance - amount < rc →
      (withdrawRequest balance debt amount rc).result =
        Except.error (WithdrawError.insufficientCollateralAfterWithdrawal
          ⟨balance, amount, balance - amount, rc, debt⟩)) ∧
    ((withdrawRequest balance debt amount rc).result = Except.ok () ↔
      (withdrawRequest balance debt amount rc).contractInvoked = true) ∧
    (debt = 0 → amount ≤ balance →
      (withdrawRequest balance debt amount rc).contractInvoked = true) := by
  unfold withdrawRequest
  by_cases h1 : balance < amount
  · have h1' : ¬ amount ≤ balance := not_le.mpr h1
    simp [h1, h1']
  · have h1' : amount ≤ balance := not_lt.mp h1
    by_cases h2 : 0 < debt ∧ balance - amount < rc
    · simp [h1, h2]
      exact fun h0 => absurd h2.1 (by simp [h0])
    · simp [h1, h2]
      constructor
      · refine ⟨h1', fun hd => ?_⟩
        rcases not_and_or.mp h2 with hnd | hrc
        · exact absurd hd hnd
        · exact le_of_not_lt hrc
      · intro hle hd
        rcases not_and_or.mp h2 with hnd | hrc
        · exact absurd hd hnd
        · exact le_of_not_lt hrc

/-- Witness for C3's amended theorem: balance 100, debt 50, amount 20,
required collateral 60 admits the withdrawal and invokes the contract. -/
theorem withdraw_request_spec_witness :
    (withdrawRequest 100 50 20 60).contractInvoked = true :=
  (withdraw_request_spec 100 50 20 60).1.mpr
    ⟨by norm_num, fun _ => by norm_num⟩

inductive LoanReqError where
  | accountNotActive
  | insufficientCollateral
  | exceedsBorrowingCapacity
deriving DecidableEq

/-- Successful loan request payload: the loan identifier extracted from
the contract transaction result (null when the LoanRequested event is
missing) and the re-read account state, here abstracted by a tag. -/
structure LoanReqSuccess where
  loanId : Option String
  rereadAccount : Bool
deriving DecidableEq

/-- Outcome of POST /api/wallet/loan/request: the handler decision plus
whether the contract loan mutation was invoked. -/
structure LoanReqTrace where
  result : Except LoanReqError LoanReqSuccess
  contractInvoked : Bool
deriving DecidableEq

/-- POST /api/wallet/loan/request: reject an inactive account, then a
balance below the contract-computed required collateral, then a new total
debt above the contract-computed maximum borrowable; only then invoke the
contract loan mutation, take its loan id and re-read the account. The rc
and maxB arguments are the contract oracle's replies. -/
def loanRequest (isActive : Bool) (balance debt amount rc maxB : Rat)
    (contractLoanId : Option String) : LoanReqTrace :=
  if !isActive then
    ⟨Except.error LoanReqError.accountNotActive, false⟩
  else if balance < rc then
    ⟨Except.error LoanReqError.insufficientCollateral, false⟩
  else if maxB < debt + amount then
    ⟨Except.error LoanReqError.exceedsBorrowingCapacity, false⟩
  else ⟨Except.ok ⟨contractLoanId, true⟩, true⟩

/-- C4: the loan-request orchestrator checks account activity, collateral
sufficiency and borrowing capacity in that order, and invokes the contract
mutation, extracts the loan id and re-reads the account exactly when all
three checks pass. -/
theorem loan_request_spec (isActive : Bool) (balance debt amount rc maxB : Rat)
    (cid : Option String) :
    ((loanRequest isActive balance debt amount rc maxB cid).result =
        Except.error LoanReqError.accountNotActive ↔ isActive = false) ∧
    ((loanRequest isActive balance debt amount rc maxB cid).result =
        Except.error LoanReqError.insufficientCollateral ↔
      isActive = true ∧ balance < rc) ∧
    ((loanRequest isActive balance debt amount rc maxB cid).result =
        Except.error LoanReqError.exceedsBorrowingCapacity ↔
      isActive = true ∧ rc ≤ balance ∧ maxB < debt + amount) ∧
    ((loanRequest isActive balance debt amount rc maxB cid).contractInvoked =
        true ↔
      isActive = true ∧ rc ≤ balance ∧ debt + amount ≤ maxB) ∧
    ((loanRequest isActive balance debt amount rc maxB cid).result =
        Except.ok ⟨cid, true⟩ ↔
      (loanRequest isActive balance debt amount rc maxB cid).contractInvoked =
        true) := by
  cases isActive
  · simp [loanRequest]
  · by_cases h1 : balance < rc
    · have h1' : ¬ rc ≤ balance := not_le.mpr h1
      simp [loanRequest, h1, h1']
    · have h1' : rc ≤ balance := not_lt.mp h1
      by_cases h2 : maxB < debt + amount
      · have h2' : ¬ debt + amount ≤ maxB := not_le.mpr h2
        simp [loanRequest, h1, h1', h2, h2']
      · have h2' : debt + amount ≤ maxB := not_lt.mp h2
        simp [loanRequest, h1, h1', h2, h2']

/-- Witness for C4 at a concrete admissible request: active account,
balance 1000, no debt, request 300 with required collateral 100 and
capacity 500 invokes the contract and returns its loan id. -/
theorem loan_request_spec_witness :
    (loanRequest true 1000 0 300 100 500 (some "7")).contractInvoked =
      true ∧
    (loanRequest true 1000 0 300 100 500 (some "7")).result =
      Except.ok ⟨some "7", true⟩ := by
  refine ⟨?_, ?_⟩
  · exact (loan_request_spec true 1000 0 300 100 500
      (some "7")).2.2.2.1.mpr ⟨rfl, by norm_num, by norm_num⟩
  · exact (loan_request_spec true 1000 0 300 100 500
      (some "7")).2.2.2.2.mpr ((loan_request_spec true 1000 0 300 100 500
      (some "7")).2.2.2.1.mpr ⟨rfl, by norm_num, by norm_num⟩)

/-- Result of one in-flight loan request in the concurrency model. -/
inductive ReqResult where
  | success
  | insufficientCollateral
  | exceedsCapacity
deriving DecidableEq

/-- One in-flight POST /api/wallet/loan/request: its requested amount, the
account snapshot captured by its read step (none before the read), and its
final outcome (none while still running). -/
structure PendingReq where
  amount : Rat
  snapshotDebt : Option Rat
  result : Option ReqResult
deriving DecidableEq

/-- The contract-side account state shared by both requests: the user's
collateral balance is untouched by a loan request, so only the debt is
mutable here. -/
structure SysState where
  debt : Rat
  r1 : PendingReq
  r2 : PendingReq
deriving DecidableEq

/-- One scheduler slot given to a request. The first slot performs the
awaited account read, capturing the debt snapshot. The second slot runs
the admission checks of the handler against that snapshot (balance and
required collateral are constant here and the collateral check passes; the
capacity check compares snapshot debt plus the requested amount with maxB)
and, when they pass, invokes the contract mutation on the current state.
Check-plus-mutate is kept atomic, which is generous to the code: the
source separates them by a further await. -/
def stepReq (maxB : Rat) (debt : Rat) (r : PendingReq) : PendingReq × Rat :=
  match r.snapshotDebt, r.result with
  | none, _ => ({ r with snapshotDebt := some debt }, debt)
  | some s, none =>
      if maxB < s + r.amount then
        ({ r with result := some ReqResult.exceedsCapacity }, debt)
      else
        ({ r with result := some ReqResult.success }, debt + r.amount)
  | some _, some _ => (r, debt)

/-- Dispatch one scheduler slot to request one (false) or two (true). -/
def step (maxB : Rat) (st : SysState) (which : Bool) : SysState :=
  if which then
    let (r', d') := stepReq maxB st.debt st.r2
    ⟨d', st.r1, r'⟩
  else
    let (r', d') := stepReq maxB st.debt st.r1
    ⟨d', r', st.r2⟩

/-- Run a schedule of slots from a starting state. -/
def runSchedule (maxB : Rat) (st : SysState) (sched : List Bool) : SysState :=
  sched.foldl (step maxB) st

/-- Two identical concurrent requests for 300 against zero debt. -/
def twoLoanRequests : SysState :=
  ⟨0, ⟨300, none, none⟩, ⟨300, none, none⟩⟩

/-- C5 counterexample: with capacity 500, each request for 300 is
admissible alone (0 + 300 <= 500) but not jointly (600 > 500); under the
interleaving that performs both account reads before either check, both
requests pass the admission check against the same snapshot, both invoke
the contract mutation, and the final debt 600 exceeds the capacity. There
is no per-user lock in the handler to exclude this schedule. -/
theorem concurrent_loan_requests_both_succeed :
    (0 : Rat) + 300 ≤ 500 ∧ ¬((0 : Rat) + 300 + 300 ≤ 500) ∧
    (runSchedule 500 twoLoanRequests
      [false, true, false, true]).r1.result = some ReqResult.success ∧
    (runSchedule 500 twoLoanRequests
      [false, true, false, true]).r2.result = some ReqResult.success ∧
    (runSchedule 500 twoLoanRequests [false, true, false, true]).debt =
      600 := by
  refine ⟨by norm_num, by norm_num, ?_, ?_, ?_⟩ <;>
    norm_num [runSchedule, twoLoanRequests, step, stepReq]

/-- C5 amended behavior: the same pair of requests under the serialized
schedule (request one runs to completion before request two starts) gives
exactly one success and one exceeds-capacity rejection, while the
interleaved schedule lets both succeed; the code provides no mechanism
that restricts execution to serialized schedules. -/
theorem concurrent_loan_requests_schedules :
    ((runSchedule 500 twoLoanRequests
        [false, false, true, true]).r1.result = some ReqResult.success ∧
      (runSchedule 500 twoLoanRequests
        [false, false, true, true]).r2.result =
        some ReqResult.exceedsCapacity ∧
      (runSchedule 500 twoLoanRequests [false, false, true, true]).debt =
        300) ∧
    ((runSchedule 500 twoLoanRequests
        [false, true, false, true]).r1.result = some ReqResult.success ∧
      (runSchedule 500 twoLoanRequests
        [false, true, false, true]).r2.result = some ReqResult.success) := by
  refine ⟨⟨?_, ?_, ?_⟩, ?_, ?_⟩ <;>
    norm_num [runSchedule, twoLoanRequests, step, stepReq]

/-- Stored ExchangeRate record (the fields fetch-and-store writes). -/
structure ExchangeRateRec where
  fromCurrency : String
  toCurrency : String
  rate : Rat
  source : String
deriving DecidableEq

/-- Outcome of the axios call in fetchUSDToBOBRate: a network failure or
timeout, or an HTTP response whose payload may lack the rates object. -/
inductive FetchOutcome where
  | netFailure
  | response (rates : Option (List (String × Rat)))
deriving DecidableEq

inductive RateFetchError where
  | rateSourceUnavailable
deriving DecidableEq

/-- Field access response.data.rates.BOB: none when the key is absent. -/
def lookupRate (rates : List (String × Rat)) (c : String) : Option Rat :=
  (rates.find? (fun p => p.1 == c)).map (fun p => p.2)

/-- ExchangeRateService.fetchUSDToBOBRate: any throw (timeout, missing
data or rates object, falsy BOB field) is caught and rethrown as the
single rate-source failure; note the guard is JavaScript truthiness of
rates.BOB, so only an absent or zero rate is rejected, not a negative
one. -/
def fetchUSDToBOBRate (o : FetchOutcome) : Except RateFetchError Rat :=
  match o with
  | FetchOutcome.netFailure => Except.error RateFetchError.rateSourceUnavailable
  | FetchOutcome.response none =>
      Except.error RateFetchError.rateSourceUnavailable
  | FetchOutcome.response (some rates) =>
    match lookupRate rates "BOB" with
    | none => Except.error RateFetchError.rateSourceUnavailable
    | some r =>
      if r = 0 then Except.error RateFetchError.rateSourceUnavailable
      else Except.ok r

/-- ExchangeRateService.updateExchangeRate: on a successful fetch a new
record with source "api" is appended to the rate store; on failure the
error propagates and the store is untouched. -/
def updateExchangeRate (o : FetchOutcome) (store : List ExchangeRateRec) :
    Except RateFetchError ExchangeRateRec × List ExchangeRateRec :=
  match fetchUSDToBOBRate o with
  | Except.error e => (Except.error e, store)
  | Except.ok r =>
    let re : ExchangeRateRec := ⟨"USDT", "BOB", r, "api"⟩
    (Except.ok re, store ++ [re])

/-- C6 counterexample: a response carrying the negative rate -5 for BOB is
truthy, so fetch-and-store succeeds and persists an api-sourced record
with a non-positive rate, contradicting the claimed equivalence with a
positive numeric rate. -/
theorem negative_rate_persisted :
    (updateExchangeRate
      (FetchOutcome.response (some [("BOB", -5)])) []).1 =
      Except.ok ⟨"USDT", "BOB", -5, "api"⟩ ∧
    (updateExchangeRate
      (FetchOutcome.response (some [("BOB", -5)])) []).2 =
      [⟨"USDT", "BOB", -5, "api"⟩] ∧
    ¬((0 : Rat) < -5) := by
  refine ⟨?_, ?_, by norm_num⟩ <;> rfl

/-- C6 amended: fetch-and-store persists a new record with source "api"
exactly when the response carries a nonzero rate for BOB (the check is
truthiness, so negative rates pass); on any failure it returns the
rate-source-unavailable error and the store is unchanged; on success the
appended record carries the response's BOB rate. -/
theorem update_exchange_rate_spec (o : FetchOutcome)
    (store : List ExchangeRateRec) :
    ((∃ r, (updateExchangeRate o store).1 = Except.ok r) ↔
      (∃ rates v, o = FetchOutcome.response (some rates) ∧
        lookupRate rates "BOB" = some v ∧ v ≠ 0)) ∧
    ((updateExchangeRate o store).1 =
        Except.error RateFetchError.rateSourceUnavailable →
      (updateExchangeRate o store).2 = store) ∧
    (∀ r, (updateExchangeRate o store).1 = Except.ok r →
      (updateExchangeRate o store).2 = store ++ [r] ∧
      r.source = "api" ∧ r.fromCurrency = "USDT" ∧ r.toCurrency = "BOB" ∧
      ∃ rates, o = FetchOutcome.response (some rates) ∧
        lookupRate rates "BOB" = some r.rate ∧ r.rate ≠ 0) := by
  cases o with
  | netFailure => simp [updateExchangeRate, fetchUSDToBOBRate]
  | response rs =>
    cases rs with
    | none => simp [updateExchangeRate, fetchUSDToBOBRate]
    | some rates =>
      rcases h : lookupRate rates "BOB" with _ | v
      · simp [updateExchangeRate, fetchUSDToBOBRate, h]
      · by_cases hz : v = 0
        · simp [updateExchangeRate, fetchUSDToBOBRate, h, hz]
        · refine ⟨?_, ?_, ?_⟩
          · simp only [updateExchangeRate, fetchUSDToBOBRate, h, if_neg hz]
            constructor
            · intro _
              exact ⟨rates, v, rfl, h, hz⟩
            · intro _
              exact ⟨⟨"USDT", "BOB", v, "api"⟩, rfl⟩
          · simp [updateExchangeRate, fetchUSDToBOBRate, h, hz]
          · intro r hr
            simp only [updateExchangeRate, fetchUSDToBOBRate, h,
              if_neg hz] at hr ⊢
            rcases hr with ⟨hr⟩
            exact ⟨rfl, rfl, rfl, rfl, rates, rfl, h, hz⟩

/-- Witness for C6's amended claim: a response with BOB rate 7 is
persisted as an api record appended to the empty store. -/
theorem update_exchange_rate_spec_witness :
    (updateExchangeRate
      (FetchOutcome.response (some [("BOB", 7)])) []).2 =
      [⟨"USDT", "BOB", 7, "api"⟩] := by
  have h := (update_exchange_rate_spec
    (FetchOutcome.response (some [("BOB", 7)])) []).2.2
    ⟨"USDT", "BOB", 7, "api"⟩ (by decide)
  simpa using h.1


/-- JavaScript number results of Math.max and Math.min over a possibly
empty list: a rational, or one of the two infinities. -/
abbrev JSNum := WithBot (WithTop Rat)

/-- Embedding of a finite rational value into JSNum. -/
def toJS (q : Rat) : JSNum := ((q : WithTop Rat) : JSNum)

/-- Math.max over a spread list: fold of max with base -Infinity. -/
def jsMax (vs : List Rat) : JSNum :=
  vs.foldr (fun v a => max (toJS v) a) ⊥

/-- Math.min over a spread list: fold of min with base +Infinity. -/
def jsMin (vs : List Rat) : JSNum :=
  vs.foldr (fun v a => min (toJS v) a) ⊤

/-- The pattern x or-else 0: zero is the only falsy finite number, so
only an exact zero is replaced; the infinities are truthy and survive. -/
def jsOrZero (x : JSNum) : JSNum := if x = toJS 0 then toJS 0 else x

/-- calculateVolatility without the final square root: mean, squared
deviations from the mean, and their average (population variance). Lists
with fewer than two points give 0, as in the helper's guard. -/
def calcVolatilitySq (values : List Rat) : Rat :=
  if values.length < 2 then 0
  else
    let mean := values.sum / values.length
    let squaredDiffs := values.map (fun v => (v - mean) ^ 2)
    squaredDiffs.sum / squaredDiffs.length

/-- The analytics object of GET /api/exchange/rates/history, computed
over the rate values newest-first; volatility is reported through its
square since the host's square root is the last step applied. -/
structure RateAnalytics where
  count : Nat
  latest : Rat
  highest : JSNum
  lowest : JSNum
  average : Rat
  volatilitySq : Rat
deriving DecidableEq

def analyticsOf (vs : List Rat) : RateAnalytics :=
  ⟨vs.length, vs.headD 0, jsOrZero (jsMax vs), jsOrZero (jsMin vs),
    if 0 < vs.length then vs.sum / vs.length else 0,
    if 1 < vs.length then calcVolatilitySq vs else 0⟩

theorem toJS_le_toJS {a b : Rat} : toJS a ≤ toJS b ↔ a ≤ b := by
  simp [toJS]

theorem toJS_max (a b : Rat) : toJS (max a b) = max (toJS a) (toJS b) := by
  rcases le_total a b with h | h
  · rw [max_eq_right h, max_eq_right (toJS_le_toJS.mpr h)]
  · rw [max_eq_left h, max_eq_left (toJS_le_toJS.mpr h)]

theorem toJS_min (a b : Rat) : toJS (min a b) = min (toJS a) (toJS b) := by
  rcases le_total a b with h | h
  · rw [min_eq_left h, min_eq_left (toJS_le_toJS.mpr h)]
  · rw [min_eq_right h, min_eq_right (toJS_le_toJS.mpr h)]

theorem jsMax_spec (vs : List Rat) (hv : vs ≠ []) :
    ∃ m, m ∈ vs ∧ (∀ v ∈ vs, v ≤ m) ∧ jsMax vs = toJS m := by
  induction vs with
  | nil => exact absurd rfl hv
  | cons v vs ih =>
    cases vs with
    | nil =>
      refine ⟨v, List.mem_singleton.mpr rfl, ?_, ?_⟩
      · intro x hx
        rw [List.mem_singleton.mp hx]
      · show max (toJS v) ⊥ = toJS v
        exact max_eq_left bot_le
    | cons w ws =>
      obtain ⟨m, hm, hle, heq⟩ := ih (by simp)
      refine ⟨max v m, ?_, ?_, ?_⟩
      · rcases max_choice v m with h | h
        · rw [h]; exact List.mem_cons_self v _
        · rw [h]; exact List.mem_cons_of_mem v hm
      · intro x hx
        rcases List.mem_cons.mp hx with h | h
        · rw [h]; exact le_max_left v m
        · exact le_trans (hle x h) (le_max_right v m)
      · show max (toJS v) (jsMax (w :: ws)) = toJS (max v m)
        rw [heq, toJS_max]

theorem jsMin_spec (vs : List Rat) (hv : vs ≠ []) :
    ∃ m, m ∈ vs ∧ (∀ v ∈ vs, m ≤ v) ∧ jsMin vs = toJS m := by
  induction vs with
  | nil => exact absurd rfl hv
  | cons v vs ih =>
    cases vs with
    | nil =>
      refine ⟨v, List.mem_singleton.mpr rfl, ?_, ?_⟩
      · intro x hx
        rw [List.mem_singleton.mp hx]
      · show min (toJS v) ⊤ = toJS v
        exact min_eq_left le_top
    | cons w ws =>
      obtain ⟨m, hm, hle, heq⟩ := ih (by simp)
      refine ⟨min v m, ?_, ?_, ?_⟩
      · rcases min_choice v m with h | h
        · rw [h]; exact List.mem_cons_self v _
        · rw [h]; exact List.mem_cons_of_mem v hm
      · intro x hx
        rcases List.mem_cons.mp hx with h | h
        · rw [h]; exact min_le_left v m
        · exact le_trans (min_le_right v m) (hle x h)
      · show min (toJS v) (jsMin (w :: ws)) = toJS (min v m)
        rw [heq, toJS_min]

theorem jsOrZero_toJS (m : Rat) : jsOrZero (toJS m) = toJS m := by
  unfold jsOrZero
  by_cases h : toJS m = toJS 0
  · rw [if_pos h, h]
  · rw [if_neg h]

theorem sum_sq_dev (vs : List Rat) (m : Rat) :
    (vs.map (fun v => (v - m) ^ 2)).sum =
      (vs.map (fun v => v ^ 2)).sum - 2 * m * vs.sum +
        vs.length * m ^ 2 := by
  induction vs with
  | nil => simp
  | cons v vs ih =>
    simp only [List.map_cons, List.sum_cons, List.length_cons, ih]
    push_cast
    ring

theorem calcVolatilitySq_eq (vs : List Rat) (h : 2 ≤ vs.length) :
    calcVolatilitySq vs =
      (vs.map (fun v => v ^ 2)).sum / vs.length -
        (vs.sum / vs.length) ^ 2 := by
  have hn : (vs.length : Rat) ≠ 0 := by
    have h0 : 0 < vs.length := lt_of_lt_of_le (by norm_num) h
    exact_mod_cast Nat.pos_iff_ne_zero.mp h0
  unfold calcVolatilitySq
  rw [if_neg (by omega)]
  simp only [List.length_map]
  rw [sum_sq_dev]
  field_simp
  ring

/-- C9: over the (newest-first) rate values the analytics report the
count, the first value as latest, the maximum and minimum values, the
arithmetic mean, and a volatility whose square is the population variance
of the values; with fewer than two points the volatility is exactly 0. -/
theorem analytics_spec (vs : List Rat) :
    (analyticsOf vs).count = vs.length ∧
    (analyticsOf vs).average = vs.sum / vs.length ∧
    (∀ h : vs ≠ [], (analyticsOf vs).latest = vs.head h) ∧
    (vs ≠ [] → ∃ m, m ∈ vs ∧ (∀ v ∈ vs, v ≤ m) ∧
      (analyticsOf vs).highest = toJS m) ∧
    (vs ≠ [] → ∃ m, m ∈ vs ∧ (∀ v ∈ vs, m ≤ v) ∧
      (analyticsOf vs).lowest = toJS m) ∧
    (2 ≤ vs.length → (analyticsOf vs).volatilitySq =
      (vs.map (fun v => v ^ 2)).sum / vs.length -
        (vs.sum / vs.length) ^ 2) ∧
    (vs.length < 2 → (analyticsOf vs).volatilitySq = 0) := by
  refine ⟨rfl, ?_, ?_, ?_, ?_, ?_, ?_⟩
  · show (if 0 < vs.length then vs.sum / (vs.length : Rat) else 0) = _
    by_cases h : 0 < vs.length
    · rw [if_pos h]
    · rw [if_neg h]
      have h0 : vs.length = 0 := Nat.eq_zero_of_not_pos h
      rw [h0]
      norm_num
  · intro h
    cases vs with
    | nil => exact absurd rfl h
    | cons v vs => rfl
  · intro h
    obtain ⟨m, hm, hle, heq⟩ := jsMax_spec vs h
    exact ⟨m, hm, hle, by
      show jsOrZero (jsMax vs) = toJS m
      rw [heq, jsOrZero_toJS]⟩
  · intro h
    obtain ⟨m, hm, hle, heq⟩ := jsMin_spec vs h
    exact ⟨m, hm, hle, by
      show jsOrZero (jsMin vs) = toJS m
      rw [heq, jsOrZero_toJS]⟩
  · intro h
    show (if 1 < vs.length then calcVolatilitySq vs else 0) = _
    rw [if_pos (by omega), calcVolatilitySq_eq vs h]
  · intro h
    show (if 1 < vs.length then calcVolatilitySq vs else 0) = 0
    by_cases h1 : 1 < vs.length
    · omega
    · rw [if_neg h1]

/-- Witness for C9 at the two-point history 3, 1: count 2, latest 3,
maximum 3, mean 2 and variance 1. -/
theorem analytics_spec_witness :
    (analyticsOf [3, 1]).count = 2 ∧
    (analyticsOf [3, 1]).latest = 3 ∧
    (∃ m, m ∈ ([3, 1] : List Rat) ∧ (∀ v ∈ ([3, 1] : List Rat), v ≤ m) ∧
      (analyticsOf [3, 1]).highest = toJS m) ∧
    (analyticsOf [3, 1]).volatilitySq =
      (([3, 1] : List Rat).map (fun v => v ^ 2)).sum / 2 -
        (([3, 1] : List Rat).sum / 2) ^ 2 := by
  refine ⟨(analytics_spec [3, 1]).1, ?_, ?_, ?_⟩
  · exact (analytics_spec [3, 1]).2.2.1 (by simp)
  · exact (analytics_spec [3, 1]).2.2.2.1 (by simp)
  · have h := (analytics_spec [3, 1]).2.2.2.2.2.1 (by simp)
    simpa using h

/-- C10: the analytics of an empty rate window report zero count, latest,
average and volatility, but highest -Infinity and lowest +Infinity: the
or-zero fallback does not fire on the truthy infinities Math.max and
Math.min return for an empty spread. -/
theorem analytics_empty_eval :
    (analyticsOf []).count = 0 ∧
    (analyticsOf []).latest = 0 ∧
    (analyticsOf []).average = 0 ∧
    (analyticsOf []).volatilitySq = 0 ∧
    (analyticsOf []).highest = (⊥ : JSNum) ∧
    (analyticsOf []).lowest = (⊤ : JSNum) := by
  refine ⟨rfl, rfl, rfl, rfl, ?_, ?_⟩ <;> decide

end Torito
